import Mathlib

/-!
# Verification of the `tmcl` protocol execution engine

A shallow embedding of the Go package `tmcl` (files `command.go`, `log.go`):
a client for the fixed 9-byte-frame, checksum-protected TMCL request/response
protocol.  Bytes are modelled as `Nat` (values `< 256`), the Go `int32` as
`Int` with explicit reduction modulo `2^32`, and the fallible, stateful
`Exec` method as a function of an explicit environment describing what the
transport does, returning the result value, the Go `error` (as an
`Option TMCLError`), and the list of I/O side effects performed.
-/

namespace tmcl

/-- The distinct `error` values declared at package level in `log.go`
(`errorWrongChecksum`, `errorInvalidCommand`, ...), together with the
errors `Exec` creates on the fly: `errors.New("port not open")`, a write
error, a read error from `io.ReadFull`, and
`fmt.Errorf("board returned error code %d", code)` which carries the raw
status code. -/
inductive TMCLError where
  | portNotOpen : TMCLError
  | writeFailed : TMCLError
  | readFailed : TMCLError
  | wrongChecksum : TMCLError
  | invalidCommand : TMCLError
  | wrongType : TMCLError
  | invalidType : TMCLError
  | configurationEEPROMLocked : TMCLError
  | commandNotAvailable : TMCLError
  | boardErrorCode (code : Nat) : TMCLError
deriving DecidableEq, Repr

/-- `calcChecksum` from `log.go`: the running byte sum `x += b` over the
span, with 8-bit wraparound made explicit by `% 256` at every step. -/
def calcChecksum (bts : List Nat) : Nat :=
  bts.foldl (fun x b => (x + b) % 256) 0

/-- `getError` from `log.go`: the `switch code` mapping a status byte to a
Go error (`none` = Go `nil`).  The `switch` is embedded as the equivalent
sequential comparison chain. -/
def getError (code : Nat) : Option TMCLError :=
  if code = 100 ∨ code = 101 then none
  else if code = 1 then some .wrongChecksum
  else if code = 2 then some .invalidCommand
  else if code = 3 then some .wrongType
  else if code = 4 then some .invalidType
  else if code = 5 then some .configurationEEPROMLocked
  else if code = 6 then some .commandNotAvailable
  else some (.boardErrorCode code)

/-- `binary.BigEndian.PutUint32`: the four big-endian bytes of a `Nat`
below `2^32`. -/
def putUint32BE (u : Nat) : List Nat :=
  [u / 2 ^ 24 % 256, u / 2 ^ 16 % 256, u / 2 ^ 8 % 256, u % 256]

/-- `binary.BigEndian.Uint32` on a 4-byte slice. -/
def getUint32BE (b : List Nat) : Nat :=
  b.getD 0 0 * 2 ^ 24 + b.getD 1 0 * 2 ^ 16 + b.getD 2 0 * 2 ^ 8 + b.getD 3 0

/-- Go `uint32(value)` for `value : int32`: the representative of `value`
modulo `2^32`, as a `Nat`. -/
def uint32OfInt32 (value : Int) : Nat :=
  (value % (2 ^ 32 : Int)).toNat

/-- Go `int32(u)` for `u : uint32`: reinterpret the unsigned 32-bit value
as a signed one (two's complement). -/
def int32OfUint32 (u : Nat) : Int :=
  if u < 2 ^ 31 then (u : Int) else (u : Int) - 2 ^ 32

/-- The 9-byte request frame `tx` built by `Exec` in `log.go`:
`tx[0] = 2` (module address unused), `tx[1] = cmd`, `tx[2] = typeNo`,
`tx[3] = motorOrBank`, `tx[4:8]` the big-endian bytes of `uint32(value)`,
and `tx[8] = calcChecksum(tx[:8])`. -/
def encodeFrame (cmd typeNo motorOrBank : Nat) (value : Int) : List Nat :=
  let head8 := [2, cmd, typeNo, motorOrBank] ++ putUint32BE (uint32OfInt32 value)
  head8 ++ [calcChecksum head8]

/-- One observable side effect of a call to `Exec`: a write of the raw
request bytes, a successful read of 9 reply bytes, a failed read, or an
invocation of one of the two `Logger` hooks from `log.go`
(`LogSend` / `LogRecv`). -/
inductive IOEvent where
  | write (bytes : List Nat) : IOEvent
  | read (bytes : List Nat) : IOEvent
  | readFail : IOEvent
  | logSend (raw : List Nat) (cmd index bank : Nat) (val : Int) : IOEvent
  | logRecv (raw : List Nat) (val : Int) : IOEvent
deriving DecidableEq, Repr

/-- Whether an event is an invocation of a `Logger` hook. -/
def IOEvent.isLog : IOEvent → Bool
  | .logSend _ _ _ _ _ => true
  | .logRecv _ _ => true
  | _ => false

/-- The behaviour of the environment during one `Exec` call: whether a
transport is attached (`q.port != nil`), whether the `Write` call
succeeds, and what `io.ReadFull` yields (`some resp`: the 9 reply bytes;
`none`: a read error / short read / timeout). -/
structure ExecEnv where
  portOpen : Bool
  writeOk : Bool
  readResult : Option (List Nat)
deriving DecidableEq, Repr

/-- Result of one `Exec` call: the returned `int32`, the returned Go
`error` (`none` = `nil`), and the trace of I/O side effects performed, in
order. -/
structure ExecOutcome where
  value : Int
  error : Option TMCLError
  events : List IOEvent
deriving DecidableEq, Repr

/-- `Exec` from `log.go`, step by step: fail with "port not open" when no
transport is attached (before touching the stream); build and write the
request frame; read exactly 9 reply bytes; extract the big-endian
`int32` from bytes 4..8; reject the reply when `resp[8]` differs from
`calcChecksum(resp[:8])`; map a status byte `resp[2] < 100` through
`getError`; otherwise return the extracted value.  The two logging lines
present in the source are commented out there, so no `logSend`/`logRecv`
event is ever emitted. -/
def Exec (env : ExecEnv) (cmd typeNo motorOrBank : Nat) (value : Int) :
    ExecOutcome :=
  if env.portOpen = false then
    ⟨0, some .portNotOpen, []⟩
  else
    let tx := encodeFrame cmd typeNo motorOrBank value
    if env.writeOk = false then
      ⟨0, some .writeFailed, [.write tx]⟩
    else
      match env.readResult with
      | none => ⟨0, some .readFailed, [.write tx, .readFail]⟩
      | some resp =>
        let returnValue := int32OfUint32 (getUint32BE ((resp.drop 4).take 4))
        if resp.getD 8 0 ≠ calcChecksum (resp.take 8) then
          ⟨0, some .wrongChecksum, [.write tx, .read resp]⟩
        else if resp.getD 2 0 < 100 then
          ⟨0, getError (resp.getD 2 0), [.write tx, .read resp]⟩
        else
          ⟨returnValue, none, [.write tx, .read resp]⟩

/-- The reply-decoding step inside `Exec` (`log.go`): extract the status
byte `resp[2]` and the big-endian `int32` from `resp[4:8]`, rejecting the
frame with the wrong-checksum error when `resp[8]` differs from
`calcChecksum(resp[:8])`.  `Exec` factors through this step
(`Exec_eq_decode`). -/
def decodeReply (resp : List Nat) : Except TMCLError (Nat × Int) :=
  if resp.getD 8 0 ≠ calcChecksum (resp.take 8) then .error .wrongChecksum
  else .ok (resp.getD 2 0, int32OfUint32 (getUint32BE ((resp.drop 4).take 4)))

/-! ## Helper lemmas -/

theorem calcChecksum_foldl (l : List Nat) (x : Nat) :
    l.foldl (fun a b => (a + b) % 256) (x % 256) = (x + l.sum) % 256 := by
  induction l generalizing x with
  | nil => simp
  | cons b t ih =>
    simp only [List.foldl_cons, List.sum_cons]
    have hx : (x % 256 + b) % 256 = (x + b) % 256 := by omega
    rw [hx, ih (x + b)]
    omega

/-- `calcChecksum` is the byte sum reduced modulo 256. -/
theorem calcChecksum_eq_sum (l : List Nat) : calcChecksum l = l.sum % 256 := by
  have h := calcChecksum_foldl l 0
  simpa [calcChecksum] using h

/-- Replacing the `i`-th element of a list changes the sum by the
difference of the new and old elements (stated additively over `Nat`). -/
theorem sum_set_add (l : List Nat) (i c : Nat) (h : i < l.length) :
    (l.set i c).sum + l.getD i 0 = l.sum + c := by
  induction l generalizing i with
  | nil => simp at h
  | cons a t ih =>
    cases i with
    | zero => simp [List.set, List.getD]; omega
    | succ j =>
      simp only [List.set, List.sum_cons, List.getD_cons_succ]
      have := ih j (by simpa using h)
      omega

theorem getUint32BE_putUint32BE (u : Nat) (h : u < 2 ^ 32) :
    getUint32BE (putUint32BE u) = u := by
  simp only [putUint32BE, getUint32BE, List.getD_cons_zero, List.getD_cons_succ]
  omega

theorem uint32OfInt32_lt (v : Int) : uint32OfInt32 v < 2 ^ 32 := by
  simp only [uint32OfInt32]
  omega

/-- Reinterpreting an `int32` as a `uint32` and back is the identity on
the 32-bit signed range. -/
theorem int32_roundtrip (v : Int) (hlo : -(2 ^ 31) ≤ v) (hhi : v < 2 ^ 31) :
    int32OfUint32 (uint32OfInt32 v) = v := by
  simp only [uint32OfInt32, int32OfUint32]
  split <;> omega

/-- `Exec`, on an environment that reads a full reply, factors through
`decodeReply` followed by the status classification. -/
theorem Exec_eq_decode (env : ExecEnv) (cmd typeNo motorOrBank : Nat)
    (value : Int) (resp : List Nat) (hport : env.portOpen = true)
    (hw : env.writeOk = true) (hr : env.readResult = some resp) :
    Exec env cmd typeNo motorOrBank value =
      let tx := encodeFrame cmd typeNo motorOrBank value
      match decodeReply resp with
      | .error e => ⟨0, some e, [.write tx, .read resp]⟩
      | .ok (status, v) =>
        if status < 100 then ⟨0, getError status, [.write tx, .read resp]⟩
        else ⟨v, none, [.write tx, .read resp]⟩ := by
  simp only [Exec, decodeReply, List.getD_eq_getElem?_getD, hport, hw, hr]
  by_cases hck : (resp[8]?).getD 0 = calcChecksum (resp.take 8) <;>
    by_cases hst : (resp[2]?).getD 0 < 100 <;>
      simp [hck, hst]

/-! ## The `cmdMutex` discipline

`Exec` begins with `q.cmdMutex.Lock()` and `defer q.cmdMutex.Unlock()`:
the whole exchange runs between the acquisition and the deferred release.
We embed this as a transition system over `n` caller threads sharing one
mutex: a thread is `idle` before its `Lock()` returns, `exchanging` while
it runs the body of `Exec` (encode, write, read, decode, classify), and
`done` once it has returned — and Go's `defer` fires the `Unlock()` on
every exit path, so the only transition out of `exchanging` releases the
mutex. -/

/-- Where a caller thread is inside its `Exec` call. -/
inductive ThreadPhase where
  | idle : ThreadPhase
  | exchanging : ThreadPhase
  | done : ThreadPhase
deriving DecidableEq, Repr

/-- Shared state of `n` threads calling `Exec` on one `TMCL` value:
who (if anyone) holds `cmdMutex`, and each thread's phase. -/
structure MutexState (n : Nat) where
  owner : Option (Fin n)
  phase : Fin n → ThreadPhase

/-- All threads about to call `Exec`; the mutex free. -/
def initMutexState (n : Nat) : MutexState n :=
  ⟨none, fun _ => .idle⟩

/-- One scheduler step: `Lock()` returns for a thread only when the mutex
is free (and marks it as the owner); the deferred `Unlock()` is the one
transition that ends a thread's exchange, on every exit path of `Exec`. -/
inductive MutexStep {n : Nat} : MutexState n → MutexState n → Prop where
  | lock (s : MutexState n) (t : Fin n) (hfree : s.owner = none)
      (hpc : s.phase t = .idle) :
      MutexStep s ⟨some t, Function.update s.phase t .exchanging⟩
  | unlock (s : MutexState n) (t : Fin n) (hown : s.owner = some t)
      (hpc : s.phase t = .exchanging) :
      MutexStep s ⟨none, Function.update s.phase t .done⟩

/-- States reachable from the initial state by any interleaving. -/
def MutexReachable (n : Nat) (s : MutexState n) : Prop :=
  Relation.ReflTransGen MutexStep (initMutexState n) s

/-- A thread is mid-exchange exactly when it holds the mutex. -/
def lockInv {n : Nat} (s : MutexState n) : Prop :=
  ∀ t : Fin n, s.phase t = .exchanging ↔ s.owner = some t

theorem lockInv_init (n : Nat) : lockInv (initMutexState n) := by
  intro t
  simp [initMutexState]

theorem lockInv_step {n : Nat} {s s' : MutexState n} (hs : lockInv s)
    (hstep : MutexStep s s') : lockInv s' := by
  cases hstep with
  | lock t hfree hpc =>
    intro u
    by_cases hu : u = t
    · subst hu; simp [Function.update]
    · simp only [Function.update, dif_neg hu]
      constructor
      · intro hex
        exact absurd (hfree ▸ (hs u).mp hex) (by simp)
      · intro hown
        simp only [Option.some.injEq] at hown
        exact absurd hown.symm hu
  | unlock t hown hpc =>
    intro u
    by_cases hu : u = t
    · subst hu; simp [Function.update]
    · simp only [Function.update, dif_neg hu]
      constructor
      · intro hex
        have := (hs u).mp hex
        rw [hown] at this
        simp only [Option.some.injEq] at this
        exact absurd this.symm hu
      · intro h
        simp at h

theorem lockInv_reachable {n : Nat} {s : MutexState n}
    (h : MutexReachable n s) : lockInv s := by
  induction h with
  | refl => exact lockInv_init n
  | tail _ hstep ih => exact lockInv_step ih hstep

/-! ## Claims -/

/-- C2: the spec requires the observer's send hook to be invoked with the
raw outgoing bytes on every call that reaches the write step, and the
receive hook on every full reply — but in `Exec` as implemented both
logging calls are commented out, so no `Logger` hook is ever invoked: the
event trace of every `Exec` call is free of log events, and even a fully
successful exchange produces only the write and the read. -/
theorem C2_logger_never_invoked :
    (∀ (env : ExecEnv) (cmd typeNo motorOrBank : Nat) (value : Int),
      ((Exec env cmd typeNo motorOrBank value).events.all
        fun e => ! e.isLog) = true) ∧
    (Exec ⟨true, true, some [2, 1, 100, 1, 0, 0, 1, 244, 93]⟩ 1 0 1 500).events
      = [.write (encodeFrame 1 0 1 500),
         .read [2, 1, 100, 1, 0, 0, 1, 244, 93]] := by
  constructor
  · rintro ⟨po, wo, rr⟩ cmd typeNo motorOrBank value
    cases po <;> cases wo <;> cases rr <;>
      simp [Exec, IOEvent.isLog] <;> split_ifs <;> simp [IOEvent.isLog]
  · decide

/-- C3: the frame `Exec` writes is exactly the 9 bytes
`[2, cmd, typeNo, motorOrBank, value in big-endian int32, checksum]`
where the checksum byte is the sum of the preceding 8 bytes modulo 256;
in particular `Exec(1, 0, 1, 500)` writes
`02 01 00 01 00 00 01 F4 F9`. -/
theorem C3_frame_encoding (env : ExecEnv) (cmd typeNo motorOrBank : Nat)
    (value : Int) (hport : env.portOpen = true) :
    (Exec env cmd typeNo motorOrBank value).events.head? =
      some (.write (encodeFrame cmd typeNo motorOrBank value)) ∧
    (encodeFrame cmd typeNo motorOrBank value).length = 9 ∧
    (encodeFrame cmd typeNo motorOrBank value).take 8 =
      [2, cmd, typeNo, motorOrBank] ++ putUint32BE (uint32OfInt32 value) ∧
    (encodeFrame cmd typeNo motorOrBank value).getD 8 0 =
      ((encodeFrame cmd typeNo motorOrBank value).take 8).sum % 256 ∧
    encodeFrame 1 0 1 500 = [2, 1, 0, 1, 0, 0, 1, 244, 249] := by
  refine ⟨?_, ?_, ?_, ?_, by decide⟩
  · obtain ⟨po, wo, rr⟩ := env
    cases po <;> cases wo <;> cases rr <;>
      simp_all [Exec] <;> split_ifs <;> simp
  · simp [encodeFrame, putUint32BE]
  · simp [encodeFrame, putUint32BE]
  · simp [encodeFrame, putUint32BE, calcChecksum_eq_sum]

theorem C3_frame_encoding_witness :
    (Exec ⟨true, true, none⟩ 1 0 1 500).events.head? =
      some (.write (encodeFrame 1 0 1 500)) ∧
    (encodeFrame 1 0 1 500).length = 9 ∧
    (encodeFrame 1 0 1 500).take 8 =
      [2, 1, 0, 1] ++ putUint32BE (uint32OfInt32 500) ∧
    (encodeFrame 1 0 1 500).getD 8 0 =
      ((encodeFrame 1 0 1 500).take 8).sum % 256 ∧
    encodeFrame 1 0 1 500 = [2, 1, 0, 1, 0, 0, 1, 244, 249] :=
  C3_frame_encoding ⟨true, true, none⟩ 1 0 1 500 rfl

/-- C7: with no transport attached (`q.port == nil`), `Exec` fails with
the "port not open" error, returns 0, and performs no I/O at all; the
outcome is the same constant for every input, so every such call fails
identically until a transport is attached. -/
theorem C7_not_connected (env : ExecEnv) (cmd typeNo motorOrBank : Nat)
    (value : Int) (h : env.portOpen = false) :
    Exec env cmd typeNo motorOrBank value = ⟨0, some .portNotOpen, []⟩ := by
  simp [Exec, h]

theorem C7_not_connected_witness :
    (ExecEnv.mk false true none).portOpen = false ∧
    Exec ⟨false, true, none⟩ 1 0 1 500 = ⟨0, some .portNotOpen, []⟩ :=
  ⟨rfl, C7_not_connected ⟨false, true, none⟩ 1 0 1 500 rfl⟩

/-- C8: whenever `Exec` returns a non-nil error — port not open, write
failure, read failure, checksum mismatch, or a classified status error —
the accompanying `int32` result is 0. -/
theorem C8_zero_on_error (env : ExecEnv) (cmd typeNo motorOrBank : Nat)
    (value : Int)
    (h : (Exec env cmd typeNo motorOrBank value).error ≠ none) :
    (Exec env cmd typeNo motorOrBank value).value = 0 := by
  obtain ⟨po, wo, rr⟩ := env
  cases po <;> cases wo <;> cases rr <;> simp_all [Exec] <;>
    split_ifs at h ⊢ <;> simp_all

theorem C8_zero_on_error_witness :
    (Exec ⟨false, true, none⟩ 0 0 0 0).error ≠ none ∧
    (Exec ⟨false, true, none⟩ 0 0 0 0).value = 0 :=
  ⟨by decide, C8_zero_on_error ⟨false, true, none⟩ 0 0 0 0 (by decide)⟩

/-- C9: the `cmdMutex.Lock()` / `defer Unlock()` discipline of `Exec`:
in every state reachable by any interleaving of concurrent callers, at
most one thread is mid-exchange (mutual exclusion on the shared
transport), and a thread that has exited `Exec` never still holds the
mutex (the deferred unlock ran on its exit path). -/
theorem C9_mutual_exclusion (n : Nat) (s : MutexState n)
    (hreach : MutexReachable n s) :
    (∀ t u : Fin n, s.phase t = .exchanging → s.phase u = .exchanging →
      t = u) ∧
    (∀ t : Fin n, s.phase t = .done → s.owner ≠ some t) := by
  have hinv := lockInv_reachable hreach
  constructor
  · intro t u ht hu
    have h1 := (hinv t).mp ht
    have h2 := (hinv u).mp hu
    rw [h1] at h2
    exact (Option.some.injEq t u ▸ h2)
  · intro t ht hown
    have := (hinv t).mpr hown
    rw [ht] at this
    exact absurd this (by simp)

theorem C9_mutual_exclusion_witness :
    MutexReachable 1
      ⟨some 0, Function.update (initMutexState 1).phase 0 .exchanging⟩ ∧
    (0 : Fin 1) = 0 := by
  have hreach : MutexReachable 1
      ⟨some 0, Function.update (initMutexState 1).phase 0 .exchanging⟩ :=
    Relation.ReflTransGen.single
      (MutexStep.lock (initMutexState 1) 0 rfl rfl)
  refine ⟨hreach, ?_⟩
  have hphase : (MutexState.mk (some 0)
      (Function.update (initMutexState 1).phase 0 .exchanging)).phase 0 =
        .exchanging := by
    simp [Function.update]
  exact (C9_mutual_exclusion 1 _ hreach).1 0 0 hphase hphase

/-- C10: a checksum-valid reply whose status byte is 1 ("the board
rejected the request frame's checksum") makes `Exec` return the very same
package-level error value `errorWrongChecksum` — with result 0 — that a
locally detected checksum mismatch on the reply produces, so the caller
cannot distinguish the two conditions from the returned pair. -/
theorem C10_board_checksum_vs_local (resp1 resp2 : List Nat)
    (cmd1 typeNo1 bank1 : Nat) (v1 : Int)
    (cmd2 typeNo2 bank2 : Nat) (v2 : Int)
    (h1ck : resp1.getD 8 0 = calcChecksum (resp1.take 8))
    (h1st : resp1.getD 2 0 = 1)
    (h2ck : resp2.getD 8 0 ≠ calcChecksum (resp2.take 8)) :
    (Exec ⟨true, true, some resp1⟩ cmd1 typeNo1 bank1 v1).error =
      some .wrongChecksum ∧
    (Exec ⟨true, true, some resp2⟩ cmd2 typeNo2 bank2 v2).error =
      some .wrongChecksum ∧
    (Exec ⟨true, true, some resp1⟩ cmd1 typeNo1 bank1 v1).value =
      (Exec ⟨true, true, some resp2⟩ cmd2 typeNo2 bank2 v2).value := by
  simp only [List.getD_eq_getElem?_getD] at h1ck h1st h2ck
  refine ⟨?_, ?_, ?_⟩ <;>
    simp [Exec, h1ck, h1st, h2ck, getError]

theorem C10_board_checksum_vs_local_witness :
    (Exec ⟨true, true, some [2, 1, 1, 1, 0, 0, 0, 0, 5]⟩ 1 0 1 0).error =
      some .wrongChecksum ∧
    (Exec ⟨true, true, some [2, 1, 100, 1, 0, 0, 0, 0, 99]⟩ 2 0 1 7).error =
      some .wrongChecksum ∧
    (Exec ⟨true, true, some [2, 1, 1, 1, 0, 0, 0, 0, 5]⟩ 1 0 1 0).value =
      (Exec ⟨true, true, some [2, 1, 100, 1, 0, 0, 0, 0, 99]⟩ 2 0 1 7).value :=
  C10_board_checksum_vs_local [2, 1, 1, 1, 0, 0, 0, 0, 5]
    [2, 1, 100, 1, 0, 0, 0, 0, 99] 1 0 1 0 2 0 1 7
    (by decide) (by decide) (by decide)

/-- C1 (counterexample): the claim says a checksum-valid reply with
status byte 102 must yield an `UnknownStatus` outcome and not success —
but `Exec` only consults `getError` when `resp[2] < 100`, so the reply
`02 01 66 01 00 00 00 00 6A` (status 102, valid checksum) yields success:
the returned error is `nil`. -/
theorem C1_status102_success :
    (Exec ⟨true, true, some [2, 1, 102, 1, 0, 0, 0, 0, 106]⟩ 1 0 1 0).error
      = none := by decide

/-- C1 (amended): for every checksum-valid reply, `Exec` classifies the
status byte as: any value ≥ 100 (101, but also 102–255) is success;
1 through 6 give their named protocol errors; 0 and 7 through 99 give the
generic board-error-code outcome preserving the raw status byte. -/
theorem C1_status_classification (env : ExecEnv)
    (cmd typeNo motorOrBank : Nat) (value : Int) (resp : List Nat)
    (hport : env.portOpen = true) (hw : env.writeOk = true)
    (hr : env.readResult = some resp)
    (hck : resp.getD 8 0 = calcChecksum (resp.take 8)) :
    (Exec env cmd typeNo motorOrBank value).error =
      if 100 ≤ resp.getD 2 0 then none
      else if resp.getD 2 0 = 1 then some .wrongChecksum
      else if resp.getD 2 0 = 2 then some .invalidCommand
      else if resp.getD 2 0 = 3 then some .wrongType
      else if resp.getD 2 0 = 4 then some .invalidType
      else if resp.getD 2 0 = 5 then some .configurationEEPROMLocked
      else if resp.getD 2 0 = 6 then some .commandNotAvailable
      else some (.boardErrorCode (resp.getD 2 0)) := by
  simp only [List.getD_eq_getElem?_getD] at hck ⊢
  have hexec : (Exec env cmd typeNo motorOrBank value).error =
      if (resp[2]?).getD 0 < 100 then getError ((resp[2]?).getD 0)
      else none := by
    simp only [Exec, hport, hw, hr, List.getD_eq_getElem?_getD, hck]
    split_ifs <;> simp_all
  rw [hexec]
  by_cases hc : (resp[2]?).getD 0 < 100
  · have h100 : ¬((resp[2]?).getD 0 = 100 ∨ (resp[2]?).getD 0 = 101) := by
      omega
    have hge : ¬100 ≤ (resp[2]?).getD 0 := by omega
    simp only [if_pos hc, if_neg hge, getError, if_neg h100]
  · have hge : 100 ≤ (resp[2]?).getD 0 := by omega
    simp only [if_neg hc, if_pos hge]

theorem C1_status_classification_witness :
    (Exec ⟨true, true, some [2, 1, 5, 1, 0, 0, 0, 0, 9]⟩ 1 0 1 0).error =
      some .configurationEEPROMLocked :=
  C1_status_classification ⟨true, true, some [2, 1, 5, 1, 0, 0, 0, 0, 9]⟩
    1 0 1 0 [2, 1, 5, 1, 0, 0, 0, 0, 9] rfl rfl rfl (by decide)

/-- C5: a reply whose trailing byte does not match the checksum of its
first 8 bytes makes `Exec` return the wrong-checksum error (with result
0) regardless of the status byte; the status byte is consulted only when
the checksum is valid. -/
theorem C5_checksum_precedes_status (env : ExecEnv)
    (cmd typeNo motorOrBank : Nat) (value : Int) (resp : List Nat)
    (hport : env.portOpen = true) (hw : env.writeOk = true)
    (hr : env.readResult = some resp) :
    (resp.getD 8 0 ≠ calcChecksum (resp.take 8) →
      Exec env cmd typeNo motorOrBank value =
        ⟨0, some .wrongChecksum,
         [.write (encodeFrame cmd typeNo motorOrBank value),
          .read resp]⟩) ∧
    (resp.getD 8 0 = calcChecksum (resp.take 8) →
      (Exec env cmd typeNo motorOrBank value).error =
        if resp.getD 2 0 < 100 then getError (resp.getD 2 0) else none) := by
  constructor <;> intro hck <;>
    simp only [List.getD_eq_getElem?_getD] at hck ⊢ <;>
      simp only [Exec, hport, hw, hr, List.getD_eq_getElem?_getD, hck] <;>
        split_ifs <;> simp_all

theorem C5_checksum_precedes_status_witness :
    ([2, 1, 100, 1, 0, 0, 0, 0, 99] : List Nat).getD 8 0 ≠
      calcChecksum (([2, 1, 100, 1, 0, 0, 0, 0, 99] : List Nat).take 8) ∧
    Exec ⟨true, true, some [2, 1, 100, 1, 0, 0, 0, 0, 99]⟩ 3 0 1 0 =
      ⟨0, some .wrongChecksum,
       [.write (encodeFrame 3 0 1 0),
        .read [2, 1, 100, 1, 0, 0, 0, 0, 99]]⟩ :=
  ⟨by decide,
   (C5_checksum_precedes_status ⟨true, true, some [2, 1, 100, 1, 0, 0, 0, 0, 99]⟩
     3 0 1 0 [2, 1, 100, 1, 0, 0, 0, 0, 99] rfl rfl rfl).1 (by decide)⟩

/-- C6: for every `v` in the full signed 32-bit range (including `-1`,
`0`, `INT32_MIN`, `INT32_MAX`), a checksum-valid reply with status 100
whose bytes 4..8 are the big-endian encoding of `v` makes `Exec` return
`(v, nil)`: the value round-trips through the big-endian encode/decode
unchanged. -/
theorem C6_value_roundtrip (env : ExecEnv) (cmd typeNo motorOrBank : Nat)
    (value v : Int) (resp : List Nat)
    (hlo : -(2 ^ 31) ≤ v) (hhi : v < 2 ^ 31)
    (hport : env.portOpen = true) (hw : env.writeOk = true)
    (hr : env.readResult = some resp)
    (hst : resp.getD 2 0 = 100)
    (hval : (resp.drop 4).take 4 = putUint32BE (uint32OfInt32 v))
    (hck : resp.getD 8 0 = calcChecksum (resp.take 8)) :
    (Exec env cmd typeNo motorOrBank value).value = v ∧
    (Exec env cmd typeNo motorOrBank value).error = none := by
  simp only [List.getD_eq_getElem?_getD] at hst hck
  have hru : int32OfUint32 (getUint32BE ((resp.drop 4).take 4)) = v := by
    rw [hval, getUint32BE_putUint32BE _ (uint32OfInt32_lt v),
      int32_roundtrip v hlo hhi]
  constructor <;>
    simp [Exec, hport, hw, hr, List.getD_eq_getElem?_getD, hck, hst, hru]

theorem C6_value_roundtrip_witness :
    (Exec ⟨true, true, some [2, 1, 100, 1, 0, 0, 0, 0, 104]⟩ 1 0 1 0).value
      = 0 ∧
    (Exec ⟨true, true, some [2, 1, 100, 1, 0, 0, 0, 0, 104]⟩ 1 0 1 0).error
      = none :=
  C6_value_roundtrip ⟨true, true, some [2, 1, 100, 1, 0, 0, 0, 0, 104]⟩
    1 0 1 0 0 [2, 1, 100, 1, 0, 0, 0, 0, 104] (by decide) (by decide)
    rfl rfl rfl (by decide) (by decide) (by decide)

/-- C4: reply decoding fails — necessarily with the wrong-checksum
error — exactly when the trailing byte differs from the sum modulo 256 of
the first 8 bytes; consequently, overwriting any single byte of a
checksum-valid 9-byte frame with a different byte value (no compensating
checksum change) makes decoding fail. -/
theorem C4_checksum_validation (resp : List Nat) (hlen : resp.length = 9)
    (hbytes : ∀ b ∈ resp, b < 256) :
    (decodeReply resp = .error .wrongChecksum ↔
      resp.getD 8 0 ≠ (resp.take 8).sum % 256) ∧
    (resp.getD 8 0 = (resp.take 8).sum % 256 →
      ∀ i, i < 9 → ∀ c, c < 256 → c ≠ resp.getD i 0 →
        decodeReply (resp.set i c) = .error .wrongChecksum) := by
  constructor
  · by_cases h : resp.getD 8 0 = (resp.take 8).sum % 256
    · simp only [List.getD_eq_getElem?_getD] at h ⊢
      simp [decodeReply, calcChecksum_eq_sum, h]
    · simp only [List.getD_eq_getElem?_getD] at h ⊢
      simp [decodeReply, calcChecksum_eq_sum, h]
  · intro hvalid i hi c hc hne
    simp only [List.getD_eq_getElem?_getD] at hvalid hne ⊢
    simp only [decodeReply, calcChecksum_eq_sum, List.set_take,
      List.getD_eq_getElem?_getD]
    rcases Nat.lt_or_ge i 8 with hi8 | hi8
    · have hgd8 : ((resp.set i c)[8]?).getD 0 = (resp[8]?).getD 0 := by
        rw [List.getElem?_set_ne (by omega)]
      have htlen : (resp.take 8).length = 8 := by
        simp [hlen]
      have hsum := sum_set_add (resp.take 8) i c (by omega)
      have hold : ((resp.take 8)[i]?).getD 0 = (resp[i]?).getD 0 := by
        rw [List.getElem?_take_of_lt hi8]
      simp only [List.getD_eq_getElem?_getD, hold] at hsum
      have holdmem : (resp[i]?).getD 0 ∈ resp := by
        have hil : i < resp.length := by omega
        rw [List.getElem?_eq_getElem hil]
        exact List.getElem_mem hil
      have holdlt : (resp[i]?).getD 0 < 256 := hbytes _ holdmem
      have hcond : ¬¬(((resp.set i c)[8]?).getD 0 ≠
          ((resp.take 8).set i c).sum % 256) := by
        rw [hgd8]
        intro hdn
        rw [Decidable.not_not] at hdn
        omega
      rw [Decidable.not_not] at hcond
      simp [hcond]
    · have hieq : i = 8 := by omega
      subst hieq
      have hgd8 : ((resp.set 8 c)[8]?).getD 0 = c := by
        rw [List.getElem?_set_self (by omega)]
        rfl
      have hsetnop : (resp.take 8).set 8 c = resp.take 8 := by
        apply List.set_eq_of_length_le
        simp [hlen]
      rw [hsetnop, hgd8]
      have hcond : c ≠ (resp.take 8).sum % 256 := by
        intro hdn
        exact hne (by omega)
      simp [hcond]

theorem C4_checksum_validation_witness :
    decodeReply (([2, 1, 100, 1, 0, 0, 0, 0, 104] : List Nat).set 0 3) =
      .error .wrongChecksum :=
  (C4_checksum_validation [2, 1, 100, 1, 0, 0, 0, 0, 104] (by decide)
    (by decide)).2 (by decide) 0 (by decide) 3 (by decide) (by decide)

end tmcl
